import Mathlib

/-
Verification of the attribute-derivation engine and the streaming batch
export pipeline of the aiida-optimade repository.

The development shallowly embeds:
  - the JSON document model and the streaming export loop of
    `aiida_optimade/cli/cmd_mongofy.py` (`create_mongodb`), and
  - the OPTIMADE attribute-derivation methods of
    `aiida_optimade/parsers/structures.py` (`StructureDataParser`).

Modelling conventions:
  - Python floats are modelled as exact rationals; a float `NaN` is
    modelled as `Option.none` (`Flt := Option ℚ`), since the only facts
    proved about `NaN` are comparison facts (`NaN` compares unequal to
    everything, and `NaN < x` is false), which the model reproduces.
  - Python exceptions are modelled with `Except`.
  - The external record store (AiiDA) is a collaborator: a
    `StructureData` record carries the data the parser reads from it,
    including the results of the external calls `node.has_vacancies` and
    `node.get_formula(...)` as plain fields.
-/

namespace AiidaOptimade

/-- Exceptions raised by the embedded code paths. `deduction` models
`DeductionError`, `valueError` models `ValueError`, `typeErr` models a
`TypeError` from iterating a non-list, `zeroDiv` models
`ZeroDivisionError`. -/
inductive PErr where
  | deduction : PErr
  | valueError : PErr
  | typeErr : PErr
  | zeroDiv : PErr
deriving DecidableEq, Repr

/-! JSON document model for the export pipeline (`cmd_mongofy.py`).
Numbers are restricted to integers; this suffices for the documents the
claims quantify over and keeps serialization exact. -/

/-- A JSON value. -/
inductive Json where
  | null : Json
  | bool (b : Bool) : Json
  | num (n : Int) : Json
  | str (s : List Char) : Json
  | arr (items : List Json) : Json
  | obj (fields : List (List Char × Json)) : Json

/-- Decimal digits of a natural number, most significant first. -/
def natChars (n : Nat) : List Char :=
  go n (n + 1)
where
  go (n fuel : Nat) : List Char :=
    match fuel with
    | 0 => []
    | fuel + 1 =>
      if n < 10 then [Char.ofNat (48 + n)]
      else go (n / 10) fuel ++ [Char.ofNat (48 + n % 10)]

/-- Decimal rendering of an integer. -/
def intChars (n : Int) : List Char :=
  if n < 0 then '-' :: natChars n.natAbs else natChars n.natAbs

/-- JSON string escaping (quote and backslash; the embedded documents
contain no control characters). -/
def escapeChars (s : List Char) : List Char :=
  s.flatMap fun c => if c = '\x22' ∨ c = '\x5c' then ['\x5c', c] else [c]

mutual

/-- Compact JSON serialization with separators `(",", ":")`, i.e. the
output of `bson.json_util.dumps(·, separators=(ITEM_SEPARATOR,
KEY_SEPARATOR))` on the embedded value grammar. -/
def serialize : Json → List Char
  | .null => ("null" : String).toList
  | .bool true => ("true" : String).toList
  | .bool false => ("false" : String).toList
  | .num n => intChars n
  | .str s => '\x22' :: escapeChars s ++ ['\x22']
  | .arr items => '[' :: serializeItems items ++ [']']
  | .obj fields => '\x7b' :: serializeFields fields ++ ['\x7d']

/-- Comma-separated serialization of array items. -/
def serializeItems : List Json → List Char
  | [] => []
  | [x] => serialize x
  | x :: y :: rest => serialize x ++ ',' :: serializeItems (y :: rest)

/-- Comma-separated serialization of object fields. -/
def serializeFields : List (List Char × Json) → List Char
  | [] => []
  | [(k, v)] => '\x22' :: escapeChars k ++ '\x22' :: ':' :: serialize v
  | (k, v) :: f :: rest =>
      '\x22' :: escapeChars k ++ '\x22' :: ':' :: serialize v
        ++ ',' :: serializeFields (f :: rest)

end

/-- Model of `bson.json_util.dumps(data, separators=(",", ":"))` applied
to a list of documents. -/
def dumps (data : List Json) : List Char :=
  serialize (Json.arr data)

/-- Model of the Python slice `[1:-1]`, as applied to the result of
`dumps` in `create_mongodb` to strip the enclosing brackets. -/
def stripEnds (s : List Char) : List Char :=
  (s.drop 1).dropLast

/-- Main loop of `create_mongodb` (`cmd_mongofy.py`, lines 203-287),
including the `try/finally` around it.  The cursor is modelled as a list
whose entries are either a fully translated document (the per-record
work succeeded) or an error raised while processing that record (this
also covers a user interrupt).  The state is the batch buffer `data` and
the characters `acc` written to the sink so far; `"["` was written
before the `try`.  On any exit path the `finally` appends `"]"`. -/
def create_mongodb_loop (batch_size : Nat) :
    List (Except PErr Json) → List Json → List Char → List Char × Except PErr Unit
  | [], data, acc =>
    -- cursor exhausted: flush the remaining entries (no trailing
    -- separator), then the finally-block writes "]"
    let acc := if data.isEmpty then acc else acc ++ stripEnds (dumps data)
    (acc ++ [']'], .ok ())
  | .error e :: _, _, acc =>
    -- an exception escapes the loop; the finally-block still writes "]"
    (acc ++ [']'], .error e)
  | .ok doc :: rest, data, acc =>
    let data := data ++ [doc]
    if data.length = batch_size then
      create_mongodb_loop batch_size rest []
        (acc ++ stripEnds (dumps data) ++ [','])
    else
      create_mongodb_loop batch_size rest data acc

/-- Model of `create_mongodb`: writes `"["`, runs the cursor loop, and
returns the full character stream written to the sink together with the
outcome. -/
def create_mongodb (records : List (Except PErr Json)) (batch_size : Nat) :
    List Char × Except PErr Unit :=
  create_mongodb_loop batch_size records [] ['[']

/-! A JSON parser, used to state which sink contents are syntactically
valid, parseable JSON.  It implements the standard JSON value grammar
over the embedded value type (strict: no trailing separators), with
whitespace allowed between tokens. -/

/-- Drop leading JSON whitespace. -/
def skipWs : List Char → List Char
  | c :: cs =>
    if c = ' ' ∨ c = '\t' ∨ c = '\n' ∨ c = '\r' then skipWs cs else c :: cs
  | [] => []

/-- Consume leading decimal digits. -/
def parseDigits (acc : Nat) : List Char → Nat × List Char
  | c :: cs =>
    if c.isDigit then parseDigits (10 * acc + (c.toNat - 48)) cs
    else (acc, c :: cs)
  | [] => (acc, [])

/-- Parse the body of a JSON string after the opening quote. -/
def parseStringBody : List Char → Option (List Char × List Char)
  | [] => none
  | '\x22' :: rest => some ([], rest)
  | '\x5c' :: c :: rest =>
    if c = '\x22' ∨ c = '\x5c' then
      match parseStringBody rest with
      | some (s, r) => some (c :: s, r)
      | none => none
    else none
  | c :: rest =>
    match parseStringBody rest with
    | some (s, r) => some (c :: s, r)
    | none => none

/-- Parse one JSON value; returns the value and the unconsumed rest.
Re-entering with a synthetic opening bracket parses the remaining items
of an array (and likewise for objects); a separator must be followed by
a further item, so trailing separators are rejected as in RFC 8259. -/
def parseVal : Nat → List Char → Option (Json × List Char)
  | 0, _ => none
  | fuel + 1, input =>
    match skipWs input with
    | 'n' :: 'u' :: 'l' :: 'l' :: rest => some (.null, rest)
    | 't' :: 'r' :: 'u' :: 'e' :: rest => some (.bool true, rest)
    | 'f' :: 'a' :: 'l' :: 's' :: 'e' :: rest => some (.bool false, rest)
    | '\x22' :: rest =>
      match parseStringBody rest with
      | some (s, r) => some (.str s, r)
      | none => none
    | '[' :: rest =>
      (match skipWs rest with
       | ']' :: r => some (.arr [], r)
       | cs2 =>
         match parseVal fuel cs2 with
         | some (v, r) =>
           (match skipWs r with
            | ',' :: r2 =>
              (match skipWs r2 with
               | ']' :: _ => none
               | _ =>
                 match parseVal fuel ('[' :: r2) with
                 | some (.arr vs, r3) => some (.arr (v :: vs), r3)
                 | _ => none)
            | ']' :: r2 => some (.arr [v], r2)
            | _ => none)
         | none => none)
    | '\x7b' :: rest =>
      (match skipWs rest with
       | '\x7d' :: r => some (.obj [], r)
       | '\x22' :: rest2 =>
         (match parseStringBody rest2 with
          | some (k, r) =>
            (match skipWs r with
             | ':' :: r2 =>
               (match parseVal fuel r2 with
                | some (v, r3) =>
                  (match skipWs r3 with
                   | ',' :: r4 =>
                     (match skipWs r4 with
                      | '\x7d' :: _ => none
                      | _ =>
                        match parseVal fuel ('\x7b' :: r4) with
                        | some (.obj fs, r5) => some (.obj ((k, v) :: fs), r5)
                        | _ => none)
                   | '\x7d' :: r4 => some (.obj [(k, v)], r4)
                   | _ => none)
                | none => none)
             | _ => none)
          | none => none)
       | _ => none)
    | '-' :: c :: rest =>
      if c.isDigit then
        match parseDigits 0 (c :: rest) with
        | (n, r) => some (.num (-(n : Int)), r)
      else none
    | c :: rest =>
      if c.isDigit then
        match parseDigits 0 (c :: rest) with
        | (n, r) => some (.num (n : Int), r)
      else none
    | [] => none

/-- Parse a full character stream as a single JSON document; `none`
when the stream is not syntactically valid JSON. -/
def jsonParse (cs : List Char) : Option Json :=
  match parseVal (cs.length + 2) (skipWs cs) with
  | some (v, rest) => if skipWs rest = [] then some v else none
  | none => none

/-- C1: for a cursor of `n` translated records and batch size `b`,
`create_mongodb` is claimed to write a syntactically valid, parseable
JSON array holding exactly the `n` documents in cursor order, in
particular for `n = b`.  The code violates this: every full batch is
written with a trailing `ITEM_SEPARATOR`, so whenever `n` is a positive
multiple of `b` the sink ends in `",]"`, which the JSON grammar rejects.
Evaluated here at the failing input `b = 1` with one record (document
`0`): the sink holds `"[0,]"`, which does not parse, while the
neighbouring run `b = 2` with the same single record yields `"[0]"`,
which parses to exactly the input document. -/
theorem C1_export_valid_json_violated :
    create_mongodb [.ok (Json.num 0)] 1 = (("[0,]" : String).toList, .ok ()) ∧
    jsonParse (("[0,]" : String).toList) = none ∧
    create_mongodb [.ok (Json.num 0)] 2 = (("[0]" : String).toList, .ok ()) ∧
    jsonParse (("[0]" : String).toList) = some (Json.arr [Json.num 0]) :=
  ⟨rfl, rfl, rfl, rfl⟩

/-- Reference form of the sink contents between the enclosing brackets
on a successful export: full batches of `b` documents are each written
as a bracket-stripped fragment followed by the item separator, and a
final partial batch (if any) is written without a trailing separator. -/
def flushChunks (b : Nat) (docs : List Json) : List Char :=
  if _h : b = 0 ∨ docs.length < b then
    if docs.isEmpty then [] else stripEnds (dumps docs)
  else
    stripEnds (dumps (docs.take b)) ++ ',' :: flushChunks b (docs.drop b)
termination_by docs.length
decreasing_by
  simp only [List.length_drop]
  omega

/-- Helper: the loop always ends by writing the array-end token, on
every exit path (normal completion or an escaping exception). -/
theorem create_mongodb_loop_last (b : Nat) (recs : List (Except PErr Json)) :
    ∀ data acc,
      ((create_mongodb_loop b recs data acc).1).getLast? = some ']' := by
  induction recs with
  | nil =>
    intro data acc
    simp only [create_mongodb_loop]
    exact List.getLast?_concat _
  | cons r rest ih =>
    intro data acc
    cases r with
    | error e =>
      simp only [create_mongodb_loop]
      exact List.getLast?_concat _
    | ok doc =>
      simp only [create_mongodb_loop]
      split <;> apply ih

/-- Helper: on an all-successful cursor the loop writes exactly the
batched serialization of the buffered and remaining documents. -/
theorem create_mongodb_loop_ok (b : Nat) (hb : 1 ≤ b) (docs : List Json) :
    ∀ data acc, data.length < b →
      create_mongodb_loop b (docs.map Except.ok) data acc
        = (acc ++ flushChunks b (data ++ docs) ++ [']'], .ok ()) := by
  induction docs with
  | nil =>
    intro data acc hlen
    rw [flushChunks]
    simp only [List.map_nil, create_mongodb_loop, List.append_nil]
    rw [dif_pos (Or.inr hlen)]
    by_cases hdata : data.isEmpty
    · simp [hdata]
    · simp [hdata]
  | cons d ds ih =>
    intro data acc hlen
    simp only [List.map_cons, create_mongodb_loop]
    by_cases hfull : (data ++ [d]).length = b
    · rw [if_pos hfull]
      have hge : ¬(b = 0 ∨ (data ++ d :: ds).length < b) := by
        simp only [List.length_append, List.length_cons, List.length_nil] at hfull ⊢
        omega
      have hsplit : data ++ d :: ds = (data ++ [d]) ++ ds := by simp
      have hrhs : flushChunks b (data ++ d :: ds)
          = stripEnds (dumps (data ++ [d])) ++ ',' :: flushChunks b ds := by
        rw [flushChunks, dif_neg hge, hsplit, List.take_left' hfull,
          List.drop_left' hfull]
      rw [hrhs, ih [] _ (by simp only [List.length_nil]; omega)]
      simp
    · rw [if_neg hfull]
      have hlt : (data ++ [d]).length < b := by
        simp only [List.length_append, List.length_cons, List.length_nil] at hfull ⊢
        omega
      rw [ih _ _ hlt]
      have hjoin : (data ++ [d]) ++ ds = data ++ d :: ds := by simp
      rw [hjoin]

/-- C4 (amended): the array-end token `"]"` is written to the sink on
every exit path — normal completion, user interrupt, or any error raised
while processing a record — but the remaining buffered documents are
flushed (without a trailing separator) before it only on normal
completion; on an error exit the buffered documents are discarded and
only `"]"` is appended. -/
theorem C4_close_token_always_written (b : Nat)
    (records : List (Except PErr Json)) (hb : 1 ≤ b) :
    ((create_mongodb records b).1).getLast? = some ']' ∧
    ∀ docs : List Json, records = docs.map Except.ok →
      create_mongodb records b
        = ('[' :: (flushChunks b docs ++ [']']), .ok ()) := by
  constructor
  · exact create_mongodb_loop_last b records [] ['[']
  · intro docs hrec
    subst hrec
    have h := create_mongodb_loop_ok b hb docs [] ['[']
      (by simp only [List.length_nil]; omega)
    simpa [create_mongodb] using h

/-- C4 witness: the amended theorem applied at batch size 2 and a
three-record cursor. -/
theorem C4_close_token_witness :
    1 ≤ 2 ∧
    (((create_mongodb
        [.ok (Json.num 1), .ok (Json.num 2), .ok (Json.num 3)] 2).1).getLast?
          = some ']' ∧
     ∀ docs : List Json,
       ([Except.ok (Json.num 1), .ok (Json.num 2), .ok (Json.num 3)]
           : List (Except PErr Json)) = docs.map Except.ok →
       create_mongodb [.ok (Json.num 1), .ok (Json.num 2), .ok (Json.num 3)] 2
         = ('[' :: (flushChunks 2 docs ++ [']']), .ok ())) :=
  ⟨by decide,
    C4_close_token_always_written 2
      [.ok (Json.num 1), .ok (Json.num 2), .ok (Json.num 3)] (by decide)⟩

/-- C4 counterexample: the claim states that on every exit path the
remaining buffered documents are flushed (without a trailing separator)
before the array-end token.  With `batch_size = 2` and a cursor whose
first record translates to document `7` and whose second raises, the
buffered document `7` is NOT flushed on the error exit: the sink holds
`"[]"`, not `"[7]"` as the claim requires. -/
theorem C4_error_exit_drops_buffer :
    create_mongodb [.ok (Json.num 7), .error .valueError] 2
      = (("[]" : String).toList, .error PErr.valueError) ∧
    (("[]" : String).toList ≠ '[' :: serialize (Json.num 7) ++ [']']) :=
  ⟨rfl, by decide⟩

/-! ToleranceUtil: `StructureDataParser.check_floating_round_errors`
(`parsers/structures.py`, lines 107-128). -/

/-- A Python float value: `none` models `NaN`, `some q` an exact value. -/
abbrev Flt := Option ℚ

/-- Python `==` between floats: `NaN` compares unequal to everything,
itself included. -/
def pyFltEq (a b : Flt) : Bool :=
  match a, b with
  | some x, some y => x == y
  | _, _ => false

/-- A Python value that is either a float or a (nested) list: the
element type handled by `check_floating_round_errors`. -/
inductive Val where
  | num (f : Flt) : Val
  | arr (l : List Val) : Val

mutual

/-- Python `==` on such values: lists compare elementwise, a float never
equals a list, and `NaN` equals nothing. -/
def valBEq : Val → Val → Bool
  | .num a, .num b => pyFltEq a b
  | .arr a, .arr b => valListBEq a b
  | _, _ => false

/-- Python `==` on lists of such values. -/
def valListBEq : List Val → List Val → Bool
  | [], [] => true
  | a :: as, b :: bs => valBEq a b && valListBEq as bs
  | _, _ => false

end

instance : BEq Val := ⟨valBEq⟩

/-- Tolerance constant `might_as_well_be_zero = 1e-8` (ångström). -/
def might_as_well_be_zero : ℚ := 1 / 100000000

/-- Scalar branch of `check_floating_round_errors`:
`if scalar < might_as_well_be_zero: scalar = 0`.  The comparison in the
source is signed (`<`, not on the absolute value).  `NaN < x` is false
in Python, so a `NaN` scalar passes through unchanged. -/
def snapFlt (f : Flt) : Flt :=
  match f with
  | none => none
  | some q => if q < might_as_well_be_zero then some 0 else some q

mutual

/-- Model of `check_floating_round_errors(some_list)`.  Iterating a
float raises `TypeError` (modelled as `.error ()`); for each list item
the inner loop over its scalars is `check_floating_round_errors_item`.
The entries it produces are appended to the shared result list in
source order. -/
def check_floating_round_errors : List Val → Except Unit (List Val)
  | [] => .ok []
  | .num _ :: _ => .error ()
  | .arr l :: rest =>
    match check_floating_round_errors_item l l [] [],
        check_floating_round_errors rest with
    | .ok entries, .ok rs => .ok (entries ++ rs)
    | .error e, _ => .error e
    | _, .error e => .error e
termination_by xs => (sizeOf xs, 0)

/-- Inner loop of `check_floating_round_errors` over the scalars of one
item `orig`: a float scalar is snapped and appended to `vector`; a list
scalar triggers `res.append(self.check_floating_round_errors(item))` —
note the source recurses on the whole item `orig`, not on the scalar.
After the loop, `vector` itself is appended to the result. -/
def check_floating_round_errors_item (orig : List Val) :
    List Val → List Val → List Val → Except Unit (List Val)
  | [], resAcc, vector => .ok (resAcc ++ [Val.arr vector])
  | .arr _ :: restScalars, resAcc, vector =>
    match check_floating_round_errors orig with
    | .ok sub =>
      check_floating_round_errors_item orig restScalars
        (resAcc ++ [Val.arr sub]) vector
    | .error e => .error e
  | .num f :: restScalars, resAcc, vector =>
    check_floating_round_errors_item orig restScalars resAcc
      (vector ++ [Val.num (snapFlt f)])
termination_by scalars => (sizeOf orig + 1, sizeOf scalars)

end

/-- Helper: the inner loop on a row of plain floats snaps every entry
in order. -/
theorem check_item_flat (orig : List Val) (row : List Flt) :
    ∀ resAcc vector,
      check_floating_round_errors_item orig (row.map Val.num) resAcc vector
        = .ok (resAcc ++
            [Val.arr (vector ++ row.map fun f => Val.num (snapFlt f))]) := by
  induction row with
  | nil =>
    intro resAcc vector
    simp [check_floating_round_errors_item]
  | cons f fs ih =>
    intro resAcc vector
    simp only [List.map_cons, check_floating_round_errors_item]
    rw [ih]
    simp

/-- Helper: on a two-level list of float rows (the shape every call in
the parser uses), `check_floating_round_errors` succeeds and snaps each
scalar, preserving the row structure. -/
theorem cfre_rows (rows : List (List Flt)) :
    check_floating_round_errors (rows.map fun row => Val.arr (row.map Val.num))
      = .ok (rows.map fun row =>
          Val.arr (row.map fun f => Val.num (snapFlt f))) := by
  induction rows with
  | nil => simp [check_floating_round_errors]
  | cons row rest ih =>
    simp only [List.map_cons, check_floating_round_errors]
    rw [check_item_flat, ih]
    simp

/-- C2: the zero-snapping utility is claimed to return 0 exactly when
`|v| < 1e-8` and otherwise return `v` unchanged.  The source compares
`scalar < might_as_well_be_zero` without taking the absolute value, so
every negative value is snapped to 0 as well.  Evaluated at the failing
input `[[-1.0, 2.0]]`: the code returns `[[0, 2.0]]`, although
`|-1.0| ≥ 1e-8` means the claim requires `-1.0` to be left unchanged. -/
theorem C2_snap_uses_signed_comparison :
    check_floating_round_errors [Val.arr [Val.num (some (-1)), Val.num (some 2)]]
      = .ok [Val.arr [Val.num (some 0), Val.num (some 2)]] ∧
    ¬ (|(-1 : ℚ)| < might_as_well_be_zero) ∧ (-1 : ℚ) ≠ 0 := by
  refine ⟨?_, by norm_num [might_as_well_be_zero], by norm_num⟩
  have h := cfre_rows [[some (-1), some 2]]
  simp only [List.map_cons, List.map_nil] at h
  rw [h]
  norm_num [snapFlt, might_as_well_be_zero]

/-! Data model for `StructureDataParser` (`parsers/structures.py`).
The AiiDA `StructureData` node is the external record store's object;
the fields below carry exactly the data the parser reads from it,
including the results of the external calls `node.get_symbols_set()`
(derivable from `kinds`), `node.has_vacancies` and
`node.get_formula(...)` (opaque collaborator outputs, carried as
fields). -/

/-- A kind: a named occupation pattern with chemical symbols and
matching occupation weights (AiiDA guarantees the two lists have equal
length). -/
structure Kind where
  name : String
  symbols : List String
  weights : List ℚ
  mass : ℚ
deriving DecidableEq, Repr

/-- A site: a position assigned to exactly one kind. -/
structure Site where
  kind_name : String
  position : List Flt
deriving DecidableEq, Repr

/-- The data of one AiiDA `StructureData` node. -/
structure StructureData where
  kinds : List Kind
  sites : List Site
  pbc : List Bool
  cell : List (List Flt)
  has_vacancies : Bool
  get_formula : String
  get_formula_hill : String

/-- One entry of the `species` attribute. -/
structure SpeciesEntry where
  name : String
  chemical_symbols : List String
  concentration : List ℚ
  mass : ℚ
  original_name : String
deriving DecidableEq, Repr

/-- Lexicographic comparison of strings by code points, as Python
compares strings. -/
def strLtB (a b : String) : Bool :=
  go a.toList b.toList
where
  go : List Char → List Char → Bool
    | [], [] => false
    | [], _ :: _ => true
    | _ :: _, [] => false
    | c :: cs, d :: ds =>
      if c.val < d.val then true
      else if d.val < c.val then false
      else go cs ds

/-- Insertion step of the sort modelling Python `sorted`. -/
def insertStr (s : String) : List String → List String
  | [] => [s]
  | t :: rest => if strLtB s t then s :: t :: rest else t :: insertStr s rest

/-- Model of Python `sorted` on a list of strings (ascending). -/
def sortStr (l : List String) : List String :=
  l.foldr insertStr []

/-- Model of the external call `node.get_symbols_set()`: the set of all
chemical symbols appearing in the node's kinds, as a deduplicated list
(only its sorted form is ever used). -/
def get_symbols_set (r : StructureData) : List String :=
  (r.kinds.flatMap Kind.symbols).dedup

/-- Number of sites whose `kind_name` equals the given name
(`len([_ for _ in self._node.sites if _.kind_name == kind.name])`). -/
def number_of_sites (r : StructureData) (kname : String) : Nat :=
  (r.sites.filter fun s => s.kind_name == kname).length

/-- Contribution of one kind to the aggregated weight of one symbol:
the sum of `kind.weights[i]` over the indices with
`kind.symbols[i] = s` (the symbol/weight lists are paired
positionally). -/
def kind_symbol_weight (k : Kind) (s : String) : ℚ :=
  (((k.symbols.zip k.weights).filter fun p => p.1 == s).map Prod.snd).sum

/-- Model of `get_symbol_weights` (lines 85-93): the occupation dict as
a function of the symbol; each kind adds
`kind.weights[i] * number_of_sites` to the entry of `kind.symbols[i]`.
The dict's keys are `sortStr (get_symbols_set r)`. -/
def get_symbol_weights (r : StructureData) (s : String) : ℚ :=
  (r.kinds.map fun k =>
    (number_of_sites r k.name : ℚ) * kind_symbol_weight k s).sum

/-- Model of `sum(ratios.values())` in `elements_ratios`: the values of
the `get_symbol_weights` dict summed over its keys — the sorted symbol
set, including the vacancy marker symbol `"X"` when present. -/
def total_weight (r : StructureData) : ℚ :=
  ((sortStr (get_symbols_set r)).map (get_symbol_weights r)).sum

/-- Model of `has_partial_occupancy` (lines 95-105): vacancies first
(external `node.has_vacancies`), then any aggregated weight that is not
an integer (`float.is_integer` on an exact rational is `den = 1`). -/
def has_partial_occupancy (r : StructureData) : Bool :=
  if r.has_vacancies then true
  else (sortStr (get_symbols_set r)).any fun s =>
    (get_symbol_weights r s).den != 1

/-- The per-instance memo dict `self.new_attributes`, keyed by the
fixed attribute names; `none` models key absence.  The cached value of
`chemical_formula_hill` may itself be `none` (Python `None`). -/
structure NewAttributes where
  elements : Option (List String) := none
  nelements : Option Nat := none
  elements_ratios : Option (List ℚ) := none
  chemical_formula_descriptive : Option String := none
  chemical_formula_reduced : Option String := none
  chemical_formula_hill : Option (Option String) := none
  chemical_formula_anonymous : Option String := none
  dimension_types : Option (List Nat) := none
  lattice_vectors : Option (List Val) := none
  cartesian_site_positions : Option (List Val) := none
  nsites : Option Nat := none
  species_at_sites : Option (List String) := none
  species : Option (List SpeciesEntry) := none
  structure_features : Option (List String) := none

/-- The empty memo dict created by `AiidaEntityParser.__init__`
(`self.new_attributes = {}`). -/
def emptyAttributes : NewAttributes := {}

/-- Model of `StructureDataParser.elements` (lines 131-147). -/
def elements (r : StructureData) (c : NewAttributes) :
    List String × NewAttributes :=
  match c.elements with
  | some v => (v, c)
  | none =>
    let res := sortStr (get_symbols_set r)
    let res := if res.contains "X" then res.erase "X" else res
    (res, { c with elements := some res })

/-- Model of `StructureDataParser.nelements` (lines 149-161). -/
def nelements (r : StructureData) (c : NewAttributes) :
    Nat × NewAttributes :=
  match c.nelements with
  | some v => (v, c)
  | none =>
    let (els, c) := elements r c
    let res := els.length
    (res, { c with nelements := some res })

/-- Model of `StructureDataParser.elements_ratios` (lines 163-185).
A zero total weight with a nonempty element list raises
`ZeroDivisionError` in the comprehension; otherwise the computed ratios
are checked through `check_floating_round_errors([[1.0 - sum(res)]])`
against `[[0]]`, and `DeductionError` is raised when the check fails. -/
def elements_ratios (r : StructureData) (c : NewAttributes) :
    Except PErr (List ℚ × NewAttributes) :=
  match c.elements_ratios with
  | some v => .ok (v, c)
  | none =>
    let (els, c) := elements r c
    if els ≠ [] ∧ total_weight r = 0 then .error .zeroDiv
    else
      let res := els.map fun s => get_symbol_weights r s / total_weight r
      let should_be_zero := 1 - res.sum
      match check_floating_round_errors
          [Val.arr [Val.num (some should_be_zero)]] with
      | .error _ => .error .typeErr
      | .ok checkv =>
        if (checkv == [Val.arr [Val.num (some 0)]]) = false then
          .error .deduction
        else .ok (res, { c with elements_ratios := some res })

/-- Model of `StructureDataParser.chemical_formula_descriptive`
(lines 187-199); `node.get_formula()` is an external collaborator,
carried as a field of the record. -/
def chemical_formula_descriptive (r : StructureData) (c : NewAttributes) :
    String × NewAttributes :=
  match c.chemical_formula_descriptive with
  | some v => (v, c)
  | none =>
    let res := r.get_formula
    (res, { c with chemical_formula_descriptive := some res })

/-- Python `round()` to an integer on an exact rational: round half to
even. -/
def pyRound (q : ℚ) : ℤ :=
  if q - q.floor < 1 / 2 then q.floor
  else if 1 / 2 < q - q.floor then q.floor + 1
  else if 2 ∣ q.floor then q.floor else q.floor + 1

/-- Decimal rendering of an integer as a string (Python f-string of an
int). -/
def intToStr (n : Int) : String :=
  String.mk (intChars n)

/-- Model of `StructureDataParser.chemical_formula_reduced`
(lines 201-228): a rounded weight of 0 or 1 prints as the empty
exponent. -/
def chemical_formula_reduced (r : StructureData) (c : NewAttributes) :
    String × NewAttributes :=
  match c.chemical_formula_reduced with
  | some v => (v, c)
  | none =>
    let exponent := fun (s : String) =>
      let rounded := pyRound (get_symbol_weights r s)
      if rounded = 0 ∨ rounded = 1 then "" else intToStr rounded
    let (els, c) := elements r c
    let res := String.join (els.map fun s => s ++ exponent s)
    (res, { c with chemical_formula_reduced := some res })

/-- Model of `StructureDataParser.chemical_formula_hill`
(lines 230-254): the external Hill-ordered formula, overwritten by
`None` whenever `has_partial_occupancy()` holds. -/
def chemical_formula_hill (r : StructureData) (c : NewAttributes) :
    Option String × NewAttributes :=
  match c.chemical_formula_hill with
  | some v => (v, c)
  | none =>
    let res := some r.get_formula_hill
    let res := if has_partial_occupancy r then none else res
    (res, { c with chemical_formula_hill := some res })

/-- Characters `string.ascii_uppercase`. -/
def ascii_uppercase : List Char := "ABCDEFGHIJKLMNOPQRSTUVWXYZ".toList

/-- Characters `string.ascii_lowercase`. -/
def ascii_lowercase : List Char := "abcdefghijklmnopqrstuvwxyz".toList

/-- Loop body of `chemical_formula_anonymous` (lines 274-283): the
anonymous label of the element at index `i`:
`ascii_uppercase[i % 26]`, extended for `i ≥ 26` by
`ascii_lowercase[(i - 26) // 26 % 26]`. -/
def anonymous_symbol (i : Nat) : String :=
  let symbol := String.singleton (ascii_uppercase.getD (i % 26) 'A')
  if 26 ≤ i then
    symbol.push (ascii_lowercase.getD ((i - 26) / 26 % 26) 'a')
  else symbol

/-- Model of `StructureDataParser.chemical_formula_anonymous`
(lines 256-302).  The dict built from `zip(elements,
anonymous_elements)` maps the i-th element to the i-th anonymous label
(the element list is deduplicated, hence keys are distinct), so the
iteration over `elements` reads the zipped pairs in order.  Only a
rounded weight of exactly 1 is omitted from the exponent. -/
def chemical_formula_anonymous (r : StructureData) (c : NewAttributes) :
    String × NewAttributes :=
  match c.chemical_formula_anonymous with
  | some v => (v, c)
  | none =>
    let (els, c) := elements r c
    let (nels, c) := nelements r c
    let anonymous_elements := (List.range nels).map anonymous_symbol
    let exponent := fun (s : String) =>
      let rounded := pyRound (get_symbol_weights r s)
      if rounded = 1 then "" else intToStr rounded
    let res := String.join ((els.zip anonymous_elements).map
        fun p => p.2 ++ exponent p.1)
    (res, { c with chemical_formula_anonymous := some res })

/-- Model of `StructureDataParser.dimension_types` (lines 304-322):
`int(value)` over the periodic-boundary flags. -/
def dimension_types (r : StructureData) (c : NewAttributes) :
    List Nat × NewAttributes :=
  match c.dimension_types with
  | some v => (v, c)
  | none =>
    let res := r.pbc.map fun value => if value then 1 else 0
    (res, { c with dimension_types := some res })

/-- Model of `StructureDataParser.lattice_vectors` (lines 324-336). -/
def lattice_vectors (r : StructureData) (c : NewAttributes) :
    Except PErr (List Val × NewAttributes) :=
  match c.lattice_vectors with
  | some v => .ok (v, c)
  | none =>
    match check_floating_round_errors
        (r.cell.map fun row => Val.arr (row.map Val.num)) with
    | .error _ => .error .typeErr
    | .ok res => .ok (res, { c with lattice_vectors := some res })

/-- Model of `StructureDataParser.cartesian_site_positions`
(lines 338-355). -/
def cartesian_site_positions (r : StructureData) (c : NewAttributes) :
    Except PErr (List Val × NewAttributes) :=
  match c.cartesian_site_positions with
  | some v => .ok (v, c)
  | none =>
    let sites := r.sites.map fun site => Val.arr (site.position.map Val.num)
    match check_floating_round_errors sites with
    | .error _ => .error .typeErr
    | .ok res => .ok (res, { c with cartesian_site_positions := some res })

/-- Model of `StructureDataParser.nsites` (lines 357-369). -/
def nsites (r : StructureData) (c : NewAttributes) :
    Except PErr (Nat × NewAttributes) :=
  match c.nsites with
  | some v => .ok (v, c)
  | none =>
    match cartesian_site_positions r c with
    | .error e => .error e
    | .ok (csp, c) =>
      let res := csp.length
      .ok (res, { c with nsites := some res })

/-- Model of `StructureDataParser.species_at_sites` (lines 371-387). -/
def species_at_sites (r : StructureData) (c : NewAttributes) :
    List String × NewAttributes :=
  match c.species_at_sites with
  | some v => (v, c)
  | none =>
    let res := r.sites.map Site.kind_name
    (res, { c with species_at_sites := some res })

/-- Decision procedure for the regular expression `[\w]*X[\d]*` under
`re.match` (line 424), i.e. matched against a prefix of the kind name:
the match succeeds exactly when some occurrence of the letter `X` is
preceded only by word characters (`[\d]*` always matches the empty
string, and the greedy `[\w]*` backtracks to every candidate prefix).
Word characters are modelled over the ASCII range (`[A-Za-z0-9_]`);
AiiDA kind names are ASCII alphanumeric. -/
def isWordChar (ch : Char) : Bool :=
  ch.isAlphanum || ch = '_'

/-- Boolean matcher for the vacancy naming convention, see
`isWordChar`. -/
def matchesVacancyName (name : String) : Bool :=
  go name.toList
where
  go : List Char → Bool
    | [] => false
    | ch :: rest => ch = 'X' || (isWordChar ch && go rest)

/-- Loop body of `StructureDataParser.species` (lines 405-434) for one
kind.  `kind_weight_sum` accumulates `kind.weights[i]` for
`i in range(len(kind.symbols))` (the positional pairing of symbols and
weights).  For a kind matching the vacancy naming convention,
`"vacancy"` is appended to the copied symbol list, and then the vacancy
concentration `1 - kind_weight_sum` is appended — unless
`kind_weight_sum` lies outside `[0, 1]`, in which case `ValueError` is
raised. -/
def species_from_kind (kind : Kind) : Except PErr SpeciesEntry :=
  let kind_weight_sum := ((kind.symbols.zip kind.weights).map Prod.snd).sum
  let sp : SpeciesEntry :=
    { name := kind.name
      chemical_symbols := kind.symbols
      concentration := kind.weights
      mass := kind.mass
      original_name := kind.name }
  if matchesVacancyName kind.name then
    let sp := { sp with chemical_symbols := sp.chemical_symbols ++ ["vacancy"] }
    if 0 ≤ kind_weight_sum ∧ kind_weight_sum ≤ 1 then
      .ok { sp with concentration := sp.concentration ++ [1 - kind_weight_sum] }
    else .error .valueError
  else .ok sp

/-- The `species` loop over all kinds; an exception from any kind
aborts the whole computation. -/
def speciesList : List Kind → Except PErr (List SpeciesEntry)
  | [] => .ok []
  | k :: rest => do
    let sp ← species_from_kind k
    let others ← speciesList rest
    pure (sp :: others)

/-- Model of `StructureDataParser.species` (lines 389-438). -/
def species (r : StructureData) (c : NewAttributes) :
    Except PErr (List SpeciesEntry × NewAttributes) :=
  match c.species with
  | some v => .ok (v, c)
  | none =>
    match speciesList r.kinds with
    | .error e => .error e
    | .ok res => .ok (res, { c with species := some res })

/-- Model of the membership test `float("NaN") in site` (line 491): the
fresh NaN object is compared by identity and `==` against each element
of the site's position list; NaN is a fresh object and equals nothing
(and a float never equals a nested list), so every comparison is false.
The `.num` case is unreachable (positions are lists). -/
def nan_in : Val → Bool
  | .arr l => l.any fun sc =>
      match sc with
      | .num f => pyFltEq none f
      | .arr _ => false
  | .num _ => false

/-- Model of `StructureDataParser.structure_features` (lines 454-502).
Every embedded species entry has the `chemical_symbols` field, so the
`OptimadeIntegrityError` branch of the source is unreachable in the
model. -/
def structure_features (r : StructureData) (c : NewAttributes) :
    Except PErr (List String × NewAttributes) :=
  match c.structure_features with
  | some v => .ok (v, c)
  | none =>
    if !has_partial_occupancy r then
      .ok (([] : List String), { c with structure_features := some [] })
    else
      match species r c with
      | .error e => .error e
      | .ok (sps, c) =>
        let res :=
          if sps.any fun sp => 1 < sp.chemical_symbols.length then
            ["disorder"]
          else []
        match cartesian_site_positions r c with
        | .error e => .error e
        | .ok (csp, c) =>
          let res := res ++
            (if csp.any fun site => nan_in site then ["unknown_positions"]
             else [])
          .ok (res, { c with structure_features := some res })

/-! Concrete records used to evaluate the embedded code. -/

/-- The origin, as a site position. -/
def p0 : List Flt := [some 0, some 0, some 0]

/-- A unit cell. -/
def cell1 : List (List Flt) :=
  [[some 1, some 0, some 0], [some 0, some 1, some 0], [some 0, some 0, some 1]]

/-- A record with one 50/50 Fe/Ni disordered kind whose single site has
an unset (NaN) first position component. -/
def rC3 : StructureData :=
  { kinds := [⟨"FeNi", ["Fe", "Ni"], [1/2, 1/2], 56⟩]
    sites := [⟨"FeNi", [none, some 0, some 0]⟩]
    pbc := [true, true, true]
    cell := cell1
    has_vacancies := false
    get_formula := "FeNi"
    get_formula_hill := "FeNi" }

/-- A record with one half-occupied Fe kind on two sites: it has
vacancies (`node.has_vacancies` is true since the kind's weights sum to
0.5 < 1), yet the aggregated Fe weight is 0.5 · 2 = 1, an integer. -/
def rC5 : StructureData :=
  { kinds := [⟨"Fe", ["Fe"], [1/2], 56⟩]
    sites := [⟨"Fe", p0⟩, ⟨"Fe", p0⟩]
    pbc := [true, true, true]
    cell := cell1
    has_vacancies := true
    get_formula := "Fe2"
    get_formula_hill := "Fe2" }

/-- A fully occupied single-site Fe record. -/
def rFe : StructureData :=
  { kinds := [⟨"Fe", ["Fe"], [1], 56⟩]
    sites := [⟨"Fe", p0⟩]
    pbc := [true, true, true]
    cell := cell1
    has_vacancies := false
    get_formula := "Fe"
    get_formula_hill := "Fe" }

/-- A record carrying an explicit vacancy kind with symbol `"X"`: half
of the total weight belongs to the vacancy marker, so the element
ratios (computed over the non-vacancy elements only, but divided by the
full total) sum to 1/2. -/
def rXhalf : StructureData :=
  { kinds := [⟨"Fe", ["Fe"], [1/2], 56⟩, ⟨"X1", ["X"], [1/2], 1⟩]
    sites := [⟨"Fe", p0⟩, ⟨"X1", p0⟩]
    pbc := [true, true, true]
    cell := cell1
    has_vacancies := true
    get_formula := "FeX"
    get_formula_hill := "FeX" }

/-- C3: with partial occupancy, `structure_features` is claimed to
contain `"unknown_positions"` exactly when some component of
`cartesian_site_positions()` is the unset (NaN) sentinel.  The source
tests membership with `float("NaN") in site`, and a fresh NaN object is
neither identical nor `==`-equal to any element, so the flag can never
be added.  Evaluated at `rC3` — partial occupancy, a disordered
species, and a NaN position component — the code yields `["disorder"]`
without `"unknown_positions"`, contradicting the claim. -/
theorem C3_unknown_positions_never_flagged :
    Except.map (fun p => p.1) (structure_features rC3 emptyAttributes)
      = .ok ["disorder"] ∧
    has_partial_occupancy rC3 = true ∧
    (rC3.sites.flatMap Site.position).contains none = true := by
  refine ⟨?_, ?_, by decide⟩
  · simp +decide [structure_features, emptyAttributes, has_partial_occupancy,
      rC3, get_symbols_set, get_symbol_weights, number_of_sites,
      kind_symbol_weight, sortStr, insertStr, strLtB, strLtB.go, species,
      speciesList, species_from_kind, matchesVacancyName,
      matchesVacancyName.go, isWordChar, cartesian_site_positions,
      check_floating_round_errors, check_floating_round_errors_item,
      snapFlt, might_as_well_be_zero, nan_in, pyFltEq, Except.map,
      bind, Except.bind, pure, Except.pure]
  · simp +decide [has_partial_occupancy, rC3, get_symbols_set,
      get_symbol_weights, number_of_sites, kind_symbol_weight, sortStr,
      insertStr, strLtB, strLtB.go]

/-- Spec-side predicate of C5 (refinement comparison, following the
spec's words): all aggregated per-element weights sum to integers. -/
def all_weights_integral (r : StructureData) : Bool :=
  (sortStr (get_symbols_set r)).all fun s => (get_symbol_weights r s).den == 1

/-- C5 counterexample: the claim states `chemical_formula_hill` is
unset exactly when `has_partial_occupancy()` holds AND the aggregated
weights do not all sum to integers.  At `rC5` — vacancies present, but
the aggregated Fe weight is the integer 1 — the claimed condition is
false, so the claim requires the Hill formula string; the code
nevertheless returns `None`, because it overwrites the result whenever
`has_partial_occupancy()` alone holds. -/
theorem C5_hill_integral_weights_counterexample :
    (chemical_formula_hill rC5 emptyAttributes).1 = none ∧
    has_partial_occupancy rC5 = true ∧
    all_weights_integral rC5 = true := by
  refine ⟨?_, ?_, ?_⟩
  · simp +decide [chemical_formula_hill, emptyAttributes,
      has_partial_occupancy, rC5]
  · simp +decide [has_partial_occupancy, rC5]
  · simp +decide [all_weights_integral, rC5, get_symbols_set,
      get_symbol_weights, number_of_sites, kind_symbol_weight, sortStr,
      insertStr, strLtB, strLtB.go]

/-- C5 (amended): on a fresh parser, `chemical_formula_hill` is unset
exactly when `has_partial_occupancy()` is true (vacancies present or
some aggregated weight non-integral); in every other case it returns
the externally formatted Hill-ordered formula string. -/
theorem C5_hill_unset_iff_partial_occupancy (r : StructureData) :
    ((chemical_formula_hill r emptyAttributes).1 = none ↔
      has_partial_occupancy r = true) ∧
    (has_partial_occupancy r = false →
      (chemical_formula_hill r emptyAttributes).1 = some r.get_formula_hill) := by
  cases h : has_partial_occupancy r <;>
    simp [chemical_formula_hill, emptyAttributes, h]

/-- C5 witness: the amended theorem applied at the fully occupied
record `rFe`. -/
theorem C5_hill_witness :
    has_partial_occupancy rFe = false ∧
    (chemical_formula_hill rFe emptyAttributes).1 = some "Fe" :=
  have h : has_partial_occupancy rFe = false := by
    simp +decide [has_partial_occupancy, rFe, get_symbols_set,
      get_symbol_weights, number_of_sites, kind_symbol_weight, sortStr,
      insertStr, strLtB, strLtB.go]
  ⟨h, (C5_hill_unset_iff_partial_occupancy rFe).2 h⟩

/-- Helper: the `!= [[0]]` guard of `elements_ratios`, with the check
routed through `check_floating_round_errors`, is equivalent to testing
whether the snapped scalar is exactly zero. -/
theorem guard_beq_snap (z : ℚ) :
    ([Val.arr [Val.num (snapFlt (some z))]] == [Val.arr [Val.num (some 0)]])
      = decide (snapFlt (some z) = some 0) := by
  by_cases hz : z < might_as_well_be_zero <;>
    simp [snapFlt, hz, BEq.beq, List.beq, valListBEq, valBEq, pyFltEq]

/-- Helper: evaluation of `elements_ratios` on an uncached attribute
dict, with the round-error check reduced to the snapped scalar. -/
theorem elements_ratios_eval (r : StructureData) (c : NewAttributes)
    (hc : c.elements_ratios = none) :
    elements_ratios r c =
      (let els := (elements r c).1
       let c1 := (elements r c).2
       if els ≠ [] ∧ total_weight r = 0 then .error .zeroDiv
       else
         let res := els.map fun s => get_symbol_weights r s / total_weight r
         if snapFlt (some (1 - res.sum)) = some 0 then
           .ok (res, { c1 with elements_ratios := some res })
         else .error .deduction) := by
  rcases hE : elements r c with ⟨els, c1⟩
  have hcf := cfre_rows [[some (1 -
    (els.map fun s => get_symbol_weights r s / total_weight r).sum)]]
  simp only [List.map_cons, List.map_nil] at hcf
  simp only [elements_ratios, hc, hE, hcf, guard_beq_snap]
  by_cases hsnap : snapFlt (some (1 -
      (els.map fun s => get_symbol_weights r s / total_weight r).sum)) = some 0 <;>
    simp [hsnap]

/-- C6: whenever `elements_ratios` returns on a fresh parser, 1 minus
the sum of the returned ratios snaps to exactly 0 under the
zero-snapping utility; and whenever the ratios it computes (with a
nonzero total weight, so that the computation itself does not raise
`ZeroDivisionError`) violate that invariant, it raises
`DeductionError`. -/
theorem C6_ratios_sum_invariant :
    (∀ r res c', elements_ratios r emptyAttributes = .ok (res, c') →
        snapFlt (some (1 - res.sum)) = some 0) ∧
    (∀ r : StructureData, total_weight r ≠ 0 →
        snapFlt (some (1 - (((elements r emptyAttributes).1).map fun s =>
            get_symbol_weights r s / total_weight r).sum)) ≠ some 0 →
        elements_ratios r emptyAttributes = .error PErr.deduction) := by
  constructor
  · intro r res c' h
    rw [elements_ratios_eval r emptyAttributes rfl] at h
    simp only at h
    split at h
    · exact absurd h (by simp)
    · split at h
      · rename_i hsnap
        simp only [Except.ok.injEq, Prod.mk.injEq] at h
        obtain ⟨⟨rfl, -⟩, -⟩ := And.intro h trivial
        exact hsnap
      · exact absurd h (by simp)
  · intro r htot hsnap
    rw [elements_ratios_eval r emptyAttributes rfl]
    simp only
    rw [if_neg (by simp [htot]), if_neg hsnap]

/-- C6 witness: the invariant theorem applied at the fully occupied
record `rFe` (ratios `[1]` are returned and snap to zero) and at the
vacancy-marker record `rXhalf` (computed ratios sum to 1/2, and
`DeductionError` is raised). -/
theorem C6_ratios_witness :
    snapFlt (some (1 - ([1] : List ℚ).sum)) = some 0 ∧
    elements_ratios rXhalf emptyAttributes = .error PErr.deduction := by
  constructor
  · exact C6_ratios_sum_invariant.1 rFe [1]
      { emptyAttributes with
        elements := some ["Fe"], elements_ratios := some [1] }
      (by
        rw [elements_ratios_eval rFe emptyAttributes rfl]
        simp +decide [elements, emptyAttributes, rFe, get_symbols_set,
          get_symbol_weights, number_of_sites, kind_symbol_weight,
          total_weight, sortStr, insertStr, strLtB, strLtB.go, snapFlt,
          might_as_well_be_zero])
  · apply C6_ratios_sum_invariant.2 rXhalf
    · simp +decide [total_weight, rXhalf, get_symbols_set,
        get_symbol_weights, number_of_sites, kind_symbol_weight, sortStr,
        insertStr, strLtB, strLtB.go]
    · simp +decide [elements, emptyAttributes, rXhalf, get_symbols_set,
        get_symbol_weights, number_of_sites, kind_symbol_weight,
        total_weight, sortStr, insertStr, strLtB, strLtB.go, snapFlt,
        might_as_well_be_zero]
      norm_num

/-- C7: for a kind matching the vacancy naming convention (with the
symbol and weight lists of equal length, as AiiDA guarantees), the
species loop body appends `"vacancy"` to the copied symbol list and the
concentration `1 - sum(kind.weights)`, and raises the range error
exactly when that remainder lies outside `[0, 1]` (the source tests
`kind_weight_sum` against `[0, 1]`, which is equivalent). -/
theorem C7_vacancy_concentration_range (kind : Kind)
    (hlen : kind.symbols.length = kind.weights.length)
    (hmatch : matchesVacancyName kind.name = true) :
    (∀ sp, species_from_kind kind = .ok sp →
        sp.chemical_symbols = kind.symbols ++ ["vacancy"] ∧
        sp.concentration = kind.weights ++ [1 - kind.weights.sum]) ∧
    (species_from_kind kind = .error PErr.valueError ↔
        1 - kind.weights.sum < 0 ∨ 1 < 1 - kind.weights.sum) := by
  have hsum : ((kind.symbols.zip kind.weights).map Prod.snd).sum
      = kind.weights.sum := by
    rw [List.map_snd_zip _ _ (le_of_eq hlen.symm)]
  constructor
  · intro sp hsp
    simp only [species_from_kind, hmatch, if_true, hsum] at hsp
    split at hsp
    · rw [Except.ok.injEq] at hsp
      subst hsp
      exact ⟨rfl, rfl⟩
    · exact absurd hsp (by simp)
  · simp only [species_from_kind, hmatch, if_true, hsum]
    split
    · rename_i hrange
      refine iff_of_false (by simp) ?_
      rintro (h | h)
      · linarith [hrange.2]
      · linarith [hrange.1]
    · rename_i hrange
      rw [not_and_or] at hrange
      refine iff_of_true rfl ?_
      rcases hrange with h | h
      · exact Or.inr (by push_neg at h; linarith)
      · exact Or.inl (by push_neg at h; linarith)

/-- A kind following the vacancy naming convention, three-quarters
occupied by Na. -/
def kindNaX : Kind := ⟨"NaX", ["Na"], [3/4], 23⟩

/-- C7 witness: the range theorem applied at `kindNaX`. -/
theorem C7_vacancy_witness :
    kindNaX.symbols.length = kindNaX.weights.length ∧
    matchesVacancyName kindNaX.name = true ∧
    ((∀ sp, species_from_kind kindNaX = .ok sp →
        sp.chemical_symbols = kindNaX.symbols ++ ["vacancy"] ∧
        sp.concentration = kindNaX.weights ++ [1 - kindNaX.weights.sum]) ∧
     (species_from_kind kindNaX = .error PErr.valueError ↔
        1 - kindNaX.weights.sum < 0 ∨ 1 < 1 - kindNaX.weights.sum)) :=
  ⟨rfl, by decide, C7_vacancy_concentration_range kindNaX rfl (by decide)⟩

/-- C8: the anonymous-formula labels assign index 0 the label `"A"`,
the first 26 indices the uppercase letters in order, index 26 the label
`"Aa"` and index 52 the label `"Ab"`; and the anonymous formula (on a
fresh parser) concatenates, in `elements()` order, the label of each
element followed by its rounded aggregated weight as exponent, omitted
exactly when that exponent equals 1. -/
theorem C8_anonymous_labels :
    anonymous_symbol 0 = "A" ∧
    (∀ i : Fin 26,
      anonymous_symbol i.val = String.singleton (ascii_uppercase.getD i.val 'A')) ∧
    anonymous_symbol 26 = "Aa" ∧
    anonymous_symbol 52 = "Ab" ∧
    (∀ r : StructureData,
      (chemical_formula_anonymous r emptyAttributes).1 =
        String.join
          ((((elements r emptyAttributes).1).zip
              ((List.range ((elements r emptyAttributes).1).length).map
                anonymous_symbol)).map
            fun p => p.2 ++
              (if pyRound (get_symbol_weights r p.1) = 1 then ""
               else intToStr (pyRound (get_symbol_weights r p.1))))) := by
  refine ⟨by decide, by decide, by decide, by decide, fun r => rfl⟩

/-- Helper: characterization of the Boolean matcher for the vacancy
naming convention, by induction over the character list. -/
theorem matchesVacancy_go_iff (l : List Char) :
    matchesVacancyName.go l = true ↔
      ∃ pre post, l = pre ++ 'X' :: post ∧ ∀ ch ∈ pre, isWordChar ch = true := by
  induction l with
  | nil =>
    constructor
    · intro h
      simp [matchesVacancyName.go] at h
    · rintro ⟨pre, post, heq, -⟩
      exact absurd heq (by simp)
  | cons ch rest ih =>
    constructor
    · intro h
      simp only [matchesVacancyName.go, Bool.or_eq_true, Bool.and_eq_true,
        decide_eq_true_eq] at h
      rcases h with h | ⟨hw, hrest⟩
      · exact ⟨[], rest, by simp [h], by simp⟩
      · obtain ⟨pre, post, heq, hpre⟩ := ih.mp hrest
        refine ⟨ch :: pre, post, by simp [heq], ?_⟩
        intro x hx
        rcases List.mem_cons.mp hx with rfl | hx
        · exact hw
        · exact hpre x hx
    · rintro ⟨pre, post, heq, hpre⟩
      simp only [matchesVacancyName.go, Bool.or_eq_true, Bool.and_eq_true,
        decide_eq_true_eq]
      cases pre with
      | nil =>
        simp only [List.nil_append, List.cons.injEq] at heq
        exact Or.inl heq.1
      | cons p ps =>
        simp only [List.cons_append, List.cons.injEq] at heq
        obtain ⟨rfl, hrest⟩ := heq
        refine Or.inr ⟨hpre _ (by simp), ih.mpr ⟨ps, post, hrest, ?_⟩⟩
        intro x hx
        exact hpre x (by simp [hx])

/-- A genuine xenon kind whose name merely contains the letter X. -/
def kindXe : Kind := ⟨"Xe", ["Xe"], [1], 131⟩

/-- C9: the anchored regular expression `[\w]*X[\d]*` under `re.match`
accepts exactly the names in which some occurrence of `X` is preceded
only by word characters; in particular the genuine chemical species
name `"Xe"` is accepted, and the species loop body therefore appends
`"vacancy"` to its chemical symbols. -/
theorem C9_vacancy_regex_overmatch :
    (∀ name : String, matchesVacancyName name = true ↔
        ∃ pre post, name.toList = pre ++ 'X' :: post ∧
          ∀ ch ∈ pre, isWordChar ch = true) ∧
    matchesVacancyName "Xe" = true ∧
    Except.map SpeciesEntry.chemical_symbols (species_from_kind kindXe)
      = .ok ["Xe", "vacancy"] := by
  refine ⟨fun name => matchesVacancy_go_iff name.toList, by decide, ?_⟩
  simp +decide [species_from_kind, kindXe, matchesVacancyName,
    matchesVacancyName.go, isWordChar, Except.map]

/-- C9 witness: the regex characterization applied at the concrete name
`"NaX"`. -/
theorem C9_vacancy_regex_witness :
    matchesVacancyName "NaX" = true ↔
      ∃ pre post, ("NaX" : String).toList = pre ++ 'X' :: post ∧
        ∀ ch ∈ pre, isWordChar ch = true :=
  C9_vacancy_regex_overmatch.1 "NaX"

/-- C10: every attribute-derivation method stores its result under the
attribute's key in `new_attributes` on a successful first call, and a
subsequent call on the resulting state returns that stored value with
the state unchanged — so two calls to the same method agree (memoized
idempotence).  Stated for every embedded method of the parser, over an
arbitrary prior cache state. -/
theorem C10_memoized_idempotence :
    (∀ r c v c', elements r c = (v, c') →
        c'.elements = some v ∧ elements r c' = (v, c')) ∧
    (∀ r c v c', nelements r c = (v, c') →
        c'.nelements = some v ∧ nelements r c' = (v, c')) ∧
    (∀ r c v c', elements_ratios r c = .ok (v, c') →
        c'.elements_ratios = some v ∧ elements_ratios r c' = .ok (v, c')) ∧
    (∀ r c v c', chemical_formula_descriptive r c = (v, c') →
        c'.chemical_formula_descriptive = some v ∧
        chemical_formula_descriptive r c' = (v, c')) ∧
    (∀ r c v c', chemical_formula_reduced r c = (v, c') →
        c'.chemical_formula_reduced = some v ∧
        chemical_formula_reduced r c' = (v, c')) ∧
    (∀ r c v c', chemical_formula_hill r c = (v, c') →
        c'.chemical_formula_hill = some v ∧
        chemical_formula_hill r c' = (v, c')) ∧
    (∀ r c v c', chemical_formula_anonymous r c = (v, c') →
        c'.chemical_formula_anonymous = some v ∧
        chemical_formula_anonymous r c' = (v, c')) ∧
    (∀ r c v c', dimension_types r c = (v, c') →
        c'.dimension_types = some v ∧ dimension_types r c' = (v, c')) ∧
    (∀ r c v c', lattice_vectors r c = .ok (v, c') →
        c'.lattice_vectors = some v ∧ lattice_vectors r c' = .ok (v, c')) ∧
    (∀ r c v c', cartesian_site_positions r c = .ok (v, c') →
        c'.cartesian_site_positions = some v ∧
        cartesian_site_positions r c' = .ok (v, c')) ∧
    (∀ r c v c', nsites r c = .ok (v, c') →
        c'.nsites = some v ∧ nsites r c' = .ok (v, c')) ∧
    (∀ r c v c', species_at_sites r c = (v, c') →
        c'.species_at_sites = some v ∧ species_at_sites r c' = (v, c')) ∧
    (∀ r c v c', species r c = .ok (v, c') →
        c'.species = some v ∧ species r c' = .ok (v, c')) ∧
    (∀ r c v c', structure_features r c = .ok (v, c') →
        c'.structure_features = some v ∧
        structure_features r c' = .ok (v, c')) := by
  refine ⟨?_, ?_, ?_, ?_, ?_, ?_, ?_, ?_, ?_, ?_, ?_, ?_, ?_, ?_⟩
  · intro r c v c' h
    cases hc : c.elements with
    | some w =>
      simp only [elements, hc, Prod.mk.injEq] at h
      obtain ⟨rfl, rfl⟩ := h
      simp [elements, hc]
    | none =>
      simp only [elements, hc, Prod.mk.injEq] at h
      obtain ⟨rfl, rfl⟩ := h
      simp [elements]
  · intro r c v c' h
    cases hc : c.nelements with
    | some w =>
      simp only [nelements, hc, Prod.mk.injEq] at h
      obtain ⟨rfl, rfl⟩ := h
      simp [nelements, hc]
    | none =>
      rcases hE : elements r c with ⟨els, c1⟩
      simp only [nelements, hc, hE, Prod.mk.injEq] at h
      obtain ⟨rfl, rfl⟩ := h
      simp [nelements]
  · intro r c v c' h
    cases hc : c.elements_ratios with
    | some w =>
      simp only [elements_ratios, hc, Except.ok.injEq, Prod.mk.injEq] at h
      obtain ⟨rfl, rfl⟩ := h
      simp [elements_ratios, hc]
    | none =>
      rcases hE : elements r c with ⟨els, c1⟩
      simp only [elements_ratios, hc, hE] at h
      split at h
      · exact absurd h (by simp)
      · split at h
        · exact absurd h (by simp)
        · split at h
          · exact absurd h (by simp)
          · simp only [Except.ok.injEq, Prod.mk.injEq] at h
            obtain ⟨rfl, rfl⟩ := h
            simp [elements_ratios]
  · intro r c v c' h
    cases hc : c.chemical_formula_descriptive with
    | some w =>
      simp only [chemical_formula_descriptive, hc, Prod.mk.injEq] at h
      obtain ⟨rfl, rfl⟩ := h
      simp [chemical_formula_descriptive, hc]
    | none =>
      simp only [chemical_formula_descriptive, hc, Prod.mk.injEq] at h
      obtain ⟨rfl, rfl⟩ := h
      simp [chemical_formula_descriptive]
  · intro r c v c' h
    cases hc : c.chemical_formula_reduced with
    | some w =>
      simp only [chemical_formula_reduced, hc, Prod.mk.injEq] at h
      obtain ⟨rfl, rfl⟩ := h
      simp [chemical_formula_reduced, hc]
    | none =>
      rcases hE : elements r c with ⟨els, c1⟩
      simp only [chemical_formula_reduced, hc, hE, Prod.mk.injEq] at h
      obtain ⟨rfl, rfl⟩ := h
      simp [chemical_formula_reduced]
  · intro r c v c' h
    cases hc : c.chemical_formula_hill with
    | some w =>
      simp only [chemical_formula_hill, hc, Prod.mk.injEq] at h
      obtain ⟨rfl, rfl⟩ := h
      simp [chemical_formula_hill, hc]
    | none =>
      simp only [chemical_formula_hill, hc, Prod.mk.injEq] at h
      obtain ⟨rfl, rfl⟩ := h
      simp [chemical_formula_hill]
  · intro r c v c' h
    cases hc : c.chemical_formula_anonymous with
    | some w =>
      simp only [chemical_formula_anonymous, hc, Prod.mk.injEq] at h
      obtain ⟨rfl, rfl⟩ := h
      simp [chemical_formula_anonymous, hc]
    | none =>
      rcases hE : elements r c with ⟨els, c1⟩
      rcases hN : nelements r c1 with ⟨nels, c2⟩
      simp only [chemical_formula_anonymous, hc, hE, hN, Prod.mk.injEq] at h
      obtain ⟨rfl, rfl⟩ := h
      simp [chemical_formula_anonymous]
  · intro r c v c' h
    cases hc : c.dimension_types with
    | some w =>
      simp only [dimension_types, hc, Prod.mk.injEq] at h
      obtain ⟨rfl, rfl⟩ := h
      simp [dimension_types, hc]
    | none =>
      simp only [dimension_types, hc, Prod.mk.injEq] at h
      obtain ⟨rfl, rfl⟩ := h
      simp [dimension_types]
  · intro r c v c' h
    cases hc : c.lattice_vectors with
    | some w =>
      simp only [lattice_vectors, hc, Except.ok.injEq, Prod.mk.injEq] at h
      obtain ⟨rfl, rfl⟩ := h
      simp [lattice_vectors, hc]
    | none =>
      simp only [lattice_vectors, hc] at h
      split at h
      · exact absurd h (by simp)
      · simp only [Except.ok.injEq, Prod.mk.injEq] at h
        obtain ⟨rfl, rfl⟩ := h
        simp [lattice_vectors]
  · intro r c v c' h
    cases hc : c.cartesian_site_positions with
    | some w =>
      simp only [cartesian_site_positions, hc, Except.ok.injEq,
        Prod.mk.injEq] at h
      obtain ⟨rfl, rfl⟩ := h
      simp [cartesian_site_positions, hc]
    | none =>
      simp only [cartesian_site_positions, hc] at h
      split at h
      · exact absurd h (by simp)
      · simp only [Except.ok.injEq, Prod.mk.injEq] at h
        obtain ⟨rfl, rfl⟩ := h
        simp [cartesian_site_positions]
  · intro r c v c' h
    cases hc : c.nsites with
    | some w =>
      simp only [nsites, hc, Except.ok.injEq, Prod.mk.injEq] at h
      obtain ⟨rfl, rfl⟩ := h
      simp [nsites, hc]
    | none =>
      simp only [nsites, hc] at h
      split at h
      · exact absurd h (by simp)
      · simp only [Except.ok.injEq, Prod.mk.injEq] at h
        obtain ⟨rfl, rfl⟩ := h
        simp [nsites]
  · intro r c v c' h
    cases hc : c.species_at_sites with
    | some w =>
      simp only [species_at_sites, hc, Prod.mk.injEq] at h
      obtain ⟨rfl, rfl⟩ := h
      simp [species_at_sites, hc]
    | none =>
      simp only [species_at_sites, hc, Prod.mk.injEq] at h
      obtain ⟨rfl, rfl⟩ := h
      simp [species_at_sites]
  · intro r c v c' h
    cases hc : c.species with
    | some w =>
      simp only [species, hc, Except.ok.injEq, Prod.mk.injEq] at h
      obtain ⟨rfl, rfl⟩ := h
      simp [species, hc]
    | none =>
      simp only [species, hc] at h
      split at h
      · exact absurd h (by simp)
      · simp only [Except.ok.injEq, Prod.mk.injEq] at h
        obtain ⟨rfl, rfl⟩ := h
        simp [species]
  · intro r c v c' h
    cases hc : c.structure_features with
    | some w =>
      simp only [structure_features, hc, Except.ok.injEq, Prod.mk.injEq] at h
      obtain ⟨rfl, rfl⟩ := h
      simp [structure_features, hc]
    | none =>
      simp only [structure_features, hc] at h
      split at h
      · simp only [Except.ok.injEq, Prod.mk.injEq] at h
        obtain ⟨rfl, rfl⟩ := h
        simp [structure_features]
      · split at h
        · exact absurd h (by simp)
        · split at h
          · exact absurd h (by simp)
          · simp only [Except.ok.injEq, Prod.mk.injEq] at h
            obtain ⟨rfl, rfl⟩ := h
            simp [structure_features]

/-- The cache state after the first `elements` call on `rFe`. -/
def cFe : NewAttributes := { elements := some ["Fe"] }

/-- C10 witness: the memoization theorem applied to the `elements`
method at the concrete record `rFe` and the fresh cache. -/
theorem C10_memoized_witness :
    cFe.elements = some ["Fe"] ∧ elements rFe cFe = (["Fe"], cFe) :=
  C10_memoized_idempotence.1 rFe emptyAttributes ["Fe"] cFe rfl

end AiidaOptimade
